import Mathlib

/-!
Verification of the alcohol-tracker core logic against its specification.

The repository is a small client-side tracker: users identified by string IDs
own ordered lists of timestamped consumption records; derived statistics
(recent totals, remaining cooldown), an autocomplete suggestion list, and two
CSV exports are computed from that state.  The definitions below are a shallow
embedding of the source functions (`src/unnamed/part_000`, the richer variant,
and `src/src/App.jsx`): timestamps are epoch milliseconds (`Int`), JavaScript
numbers are rationals extended with `NaN` (`Option ℚ`), the stored mapping is
an insertion-ordered association list, and the date-fns helpers
(`differenceInMinutes`, `addMinutes`, `subHours`) are given their documented
millisecond arithmetic.
-/
set_option linter.unusedVariables false

/-- A JavaScript number as this app produces them: a rational, or `none`
standing for `NaN`. -/
abbrev JSNum := Option ℚ

/-- JavaScript `+` on numbers: `NaN` absorbs. -/
def jsAdd : JSNum → JSNum → JSNum
  | some a, some b => some (a + b)
  | _, _ => none

/-- JavaScript `<=` on numbers: any comparison involving `NaN` is false. -/
def jsLeb : JSNum → JSNum → Bool
  | some a, some b => decide (a ≤ b)
  | _, _ => false

/-- One consumption record, `{ timestamp, amount }`.  The ISO timestamp string
is modeled by its epoch-millisecond value. -/
structure Record where
  timestamp : Int
  amount : JSNum
  deriving DecidableEq, Repr

/-- Source: `records.reduce((sum, record) => sum + record.amount, 0)`
(`src/src/App.jsx` line 164 and the same expression in `part_000`). -/
def totalConsumption (records : List Record) : JSNum :=
  records.foldl (fun sum record => jsAdd sum record.amount) (some 0)

/-- date-fns `subHours`: subtract whole hours in milliseconds. -/
def subHours (t hours : Int) : Int := t - hours * 3600000

/-- date-fns `addMinutes`: add whole minutes in milliseconds. -/
def addMinutes (t m : Int) : Int := t + m * 60000

/-- `Math.trunc(d / 60000)`: millisecond difference to whole minutes,
truncated toward zero (the rounding used by date-fns `differenceInMinutes`). -/
def minuteTrunc (d : Int) : Int :=
  if 0 ≤ d then ((d.toNat / 60000 : ℕ) : Int) else -(((-d).toNat / 60000 : ℕ) : Int)

/-- date-fns `differenceInMinutes(a, b)`: signed whole minutes from `b` to `a`,
truncated toward zero. -/
def differenceInMinutes (a b : Int) : Int := minuteTrunc (a - b)

/-- Source `calculateRecentConsumption(records, hoursAgo)` (`part_000` lines
24–30): filter records strictly after `now - hoursAgo` hours, then reduce the
amounts.  The `now` the source samples internally is taken as a parameter. -/
def calculateRecentConsumption (records : List Record) (hoursAgo now : Int) : JSNum :=
  (records.filter (fun record => decide (subHours now hoursAgo < record.timestamp))).foldl
    (fun sum record => jsAdd sum record.amount) (some 0)

/-- Source `getWaitingTime(lastConsumptionTime, waitingMinutes)` (`part_000`
lines 32–37): minutes from `now` to `lastConsumptionTime + waitingMinutes`,
clamped below at 0.  The internally sampled `now` is a parameter. -/
def getWaitingTime (lastConsumptionTime waitingMinutes now : Int) : Int :=
  if differenceInMinutes (addMinutes lastConsumptionTime waitingMinutes) now > 0
  then differenceInMinutes (addMinutes lastConsumptionTime waitingMinutes) now
  else 0

/-- Spec-side reading of claim C1: `waitingMinutes` minus the whole minutes
elapsed from `lastTimestamp` to `now` (floor), clamped below at 0. -/
def specWaitingTimeRemaining (lastTimestamp waitingMinutes now : Int) : Int :=
  max 0 (waitingMinutes - Int.fdiv (now - lastTimestamp) 60000)

/-- ASCII whitespace as skipped by JS `parseFloat` and removed by
`String.prototype.trim` (the characters this app can receive). -/
def jsWhitespace (c : Char) : Bool :=
  c == ' ' || c == '\t' || c == '\n' || c == '\r'

/-- Value of a digit string. -/
def digitsToNat (ds : List Char) : ℕ :=
  ds.foldl (fun n c => 10 * n + (c.toNat - 48)) 0

/-- Exponent part of a JS float literal: digits after `e`/`E` with an optional
sign; a malformed exponent contributes 0 (`parseFloat` stops before the `e`). -/
def expVal : List Char → Int
  | '-' :: t =>
    if (t.takeWhile Char.isDigit).isEmpty then 0
    else -(digitsToNat (t.takeWhile Char.isDigit) : Int)
  | '+' :: t =>
    if (t.takeWhile Char.isDigit).isEmpty then 0
    else (digitsToNat (t.takeWhile Char.isDigit) : Int)
  | t =>
    if (t.takeWhile Char.isDigit).isEmpty then 0
    else (digitsToNat (t.takeWhile Char.isDigit) : Int)

/-- Fractional digits of a decimal literal, when a `.` follows. -/
def fracDigits : List Char → List Char
  | '.' :: t => t.takeWhile Char.isDigit
  | _ => []

/-- What remains of the input after the integer-and-fraction part. -/
def afterFrac (cs : List Char) : List Char :=
  match cs with
  | '.' :: t => t.drop (t.takeWhile Char.isDigit).length
  | _ => cs

/-- Unsigned part of JS `parseFloat`: the longest prefix
`Digits [. Digits] [(e or E) sign Digits]`; `NaN` when no digit is consumed. -/
def parseDecimal (cs : List Char) : JSNum :=
  let ip := cs.takeWhile Char.isDigit
  let rest1 := cs.drop ip.length
  let fp := fracDigits rest1
  if ip.isEmpty && fp.isEmpty then none
  else
    let e : Int :=
      match afterFrac rest1 with
      | 'e' :: t => expVal t
      | 'E' :: t => expVal t
      | _ => 0
    some (((digitsToNat ip : ℚ) + (digitsToNat fp : ℚ) / (10 : ℚ) ^ fp.length) * (10 : ℚ) ^ e)

/-- JS `parseFloat`: skip leading whitespace, take an optional sign, then the
longest decimal-literal prefix; `NaN` (`none`) when none exists.  `Infinity`
is not modeled — this app's number inputs never produce it. -/
def parseFloat (s : String) : JSNum :=
  match s.toList.dropWhile jsWhitespace with
  | '-' :: t => (parseDecimal t).map (fun q => -q)
  | '+' :: t => parseDecimal t
  | t => parseDecimal t

/-- The two persisted keys: `alcoholTracker` (user ID → record list, an
insertion-ordered JS object) and `waitingTime` (minutes, richer variant). -/
structure Storage where
  users : List (String × List Record)
  waitingTime : Int
  deriving DecidableEq

/-- JS property read `obj[k]` on an insertion-ordered object. -/
def objGet {α : Type} (k : String) : List (String × α) → Option α
  | [] => none
  | (k', v) :: rest => if k' = k then some v else objGet k rest

/-- JS property write `obj[k] = v`: update in place when the key exists,
append a new entry otherwise. -/
def objSet {α : Type} (k : String) (v : α) : List (String × α) → List (String × α)
  | [] => [(k, v)]
  | (k', v') :: rest => if k' = k then (k, v) :: rest else (k', v') :: objSet k v rest

/-- Source `handleCreateUser` (`part_000` lines 171–178): unconditionally
`users[userId] = []`, then persist the mapping. -/
def handleCreateUser (userId : String) (users : List (String × List Record)) :
    List (String × List Record) :=
  objSet userId [] users

/-- Source `handleSearch`'s lookup `users[selectedId]` (an empty record list
is a truthy JS value, so a freshly created user is found). -/
def lookupUser (id : String) (users : List (String × List Record)) :
    Option (List Record) :=
  objGet id users

/-- Source `handleAddRecord` (`part_000` lines 181–195): return early when
`amount` is falsy (the empty string) or `currentUser` is falsy (null, or the
empty string); otherwise append `{ timestamp: now, amount: parseFloat(amount) }`
to the current user's list and persist the whole mapping. -/
def handleAddRecord (amount : String) (currentUser : Option String) (now : Int)
    (s : Storage) : Storage :=
  if amount = "" then s
  else
    match currentUser with
    | none => s
    | some u =>
      if u = "" then s
      else
        { s with
          users := objSet u (((objGet u s.users).getD [])
            ++ [{ timestamp := now, amount := parseFloat amount }]) s.users }

/-- Reference sum of a list of JS numbers (the spec side's "sum of amounts"). -/
def jsSumList (l : List JSNum) : JSNum := l.foldr jsAdd (some 0)

/-- JS `String.prototype.toLowerCase` (ASCII case mapping, which covers the
IDs this app stores). -/
def jsToLower (s : String) : String := String.mk (s.toList.map Char.toLower)

/-- JS `String.prototype.includes` on character lists: some suffix of the
haystack starts with the needle. -/
def listIncludes : List Char → List Char → Bool
  | [], needle => needle.isEmpty
  | c :: t, needle => needle.isPrefixOf (c :: t) || listIncludes t needle

/-- JS `String.prototype.includes`: substring containment. -/
def strIncludes (hay needle : String) : Bool := listIncludes hay.toList needle.toList

/-- JS `String.prototype.trim`: strip whitespace from both ends. -/
def jsTrim (s : String) : String :=
  String.mk ((s.toList.dropWhile jsWhitespace).reverse.dropWhile jsWhitespace).reverse

/-- Source suggestions effect (`part_000` lines 137–147): when the input is
truthy after trimming, keep the stored IDs whose lowercase form contains the
lowercase form of the (untrimmed) input; otherwise clear the suggestions. -/
def suggestionsFor (userId : String) (users : List (String × List Record)) : List String :=
  if jsTrim userId ≠ "" then
    (users.map Prod.fst).filter (fun id => strIncludes (jsToLower id) (jsToLower userId))
  else []

/-- Spec-side reading of claim C8: the empty input gives no suggestions, any
other input selects the IDs whose lowercase form contains its lowercase form. -/
def specSuggest (partialId : String) (users : List (String × List Record)) : List String :=
  if partialId = "" then []
  else (users.map Prod.fst).filter (fun id => strIncludes (jsToLower id) (jsToLower partialId))

/-- Single-user CSV rows (`downloadCSV`, `part_000` lines 39–58), abstracted
over the date-fns `format` renderings (`fd` for `yyyy-MM-dd`, `ft` for
`HH:mm:ss`), the JS number-to-string coercion applied by `join` (`sn`), and
`Number.prototype.toFixed(1)` (`tf`). -/
def downloadCSVRows (fd ft : Int → String) (sn tf : JSNum → String)
    (records : List Record) : List (List String) :=
  ([["Date", "Time", "Amount (ml)"]]
      ++ records.map (fun record =>
          [fd record.timestamp, ft record.timestamp, sn record.amount]))
    ++ ([[]]
      ++ [["Total Consumption", "",
          tf (records.foldl (fun sum record => jsAdd sum record.amount) (some 0)) ++ " ml"]])

/-- The downloaded single-user document: comma-joined fields, newline-joined
rows. -/
def downloadCSVContent (fd ft : Int → String) (sn tf : JSNum → String)
    (records : List Record) : String :=
  String.intercalate "\n" ((downloadCSVRows fd ft sn tf records).map (String.intercalate ","))

/-- Spec-side reading of claim C7: header row, one comma-joined row per record
in list order, one blank separator row, and a summary row with first field
"Total Consumption", second field empty, and third field the one-decimal sum
followed by " ml". -/
def specSingleUserDoc (fd ft : Int → String) (sn tf : JSNum → String)
    (records : List Record) : String :=
  String.intercalate "\n"
    (["Date,Time,Amount (ml)"]
      ++ records.map (fun record =>
          fd record.timestamp ++ "," ++ ft record.timestamp ++ "," ++ sn record.amount)
      ++ ["",
          "Total Consumption" ++ "," ++ "" ++ ","
            ++ (tf (jsSumList (records.map Record.amount)) ++ " ml")])

/-- One user's contribution to the all-users export (`downloadAllUsersCSV`,
`part_000` lines 72–112): nothing when the record list is empty; otherwise one
row per record (amounts through `toFixed(1)`), a blank row, the `Total for`
row, and another blank row. -/
def userBlock (fd ft : Int → String) (tf : JSNum → String) (userId : String)
    (records : List Record) : List (List String) :=
  if records.length = 0 then []
  else
    records.map (fun record =>
        [userId, fd record.timestamp, ft record.timestamp, tf record.amount])
      ++ [[],
          ["Total for " ++ userId, "", "",
            tf (records.foldl (fun sum record => jsAdd sum record.amount) (some 0)) ++ " ml"],
          []]

/-- `forEach` pushing each user's block in turn: blocks concatenated in the
mapping's insertion order. -/
def concatMap {α β : Type} (f : α → List β) : List α → List β
  | [] => []
  | x :: t => f x ++ concatMap f t

/-- The grand total `Object.values(users).reduce((total, records) => total +
records.reduce(..., 0), 0)`. -/
def grandTotal (users : List (String × List Record)) : JSNum :=
  users.foldl
    (fun total p =>
      jsAdd total (p.2.foldl (fun sum record => jsAdd sum record.amount) (some 0)))
    (some 0)

/-- All-users CSV rows (`downloadAllUsersCSV`, `part_000` lines 72–112). -/
def downloadAllUsersRows (fd ft : Int → String) (tf : JSNum → String)
    (users : List (String × List Record)) : List (List String) :=
  [["User ID", "Date", "Time", "Amount (ml)"]]
    ++ concatMap (fun p => userBlock fd ft tf p.1 p.2) users
    ++ [["Grand Total", "", "", tf (grandTotal users) ++ " ml"]]

theorem objGet_objSet_self {α : Type} (k : String) (v : α) (l : List (String × α)) :
    objGet k (objSet k v l) = some v := by
  induction l with
  | nil => simp [objGet, objSet]
  | cons p rest ih =>
    obtain ⟨k', v'⟩ := p
    by_cases h : k' = k <;> simp [objGet, objSet, h, ih]

theorem objGet_objSet_ne {α : Type} (k k' : String) (h : k' ≠ k) (v : α)
    (l : List (String × α)) : objGet k' (objSet k v l) = objGet k' l := by
  induction l with
  | nil => simp [objGet, objSet, Ne.symm h]
  | cons p rest ih =>
    obtain ⟨k'', v'⟩ := p
    by_cases hk : k'' = k
    · subst hk
      simp [objGet, objSet, Ne.symm h]
    · by_cases hk' : k'' = k' <;> simp [objGet, objSet, hk, hk', ih, h]

theorem jsAdd_zero (x : JSNum) : jsAdd x (some 0) = x := by
  cases x <;> simp [jsAdd]

theorem zero_jsAdd (x : JSNum) : jsAdd (some 0) x = x := by
  cases x <;> simp [jsAdd]

theorem jsAdd_assoc (x y z : JSNum) : jsAdd (jsAdd x y) z = jsAdd x (jsAdd y z) := by
  cases x <;> cases y <;> cases z <;> simp [jsAdd, add_assoc]

theorem foldl_jsAdd_eq (l : List JSNum) (a : JSNum) :
    l.foldl jsAdd a = jsAdd a (jsSumList l) := by
  induction l generalizing a with
  | nil => simp [jsSumList, jsAdd_zero]
  | cons x t ih =>
    simp only [List.foldl_cons, jsSumList, List.foldr_cons, ih, ← jsAdd_assoc]

theorem foldl_jsAdd_sum (l : List JSNum) : l.foldl jsAdd (some 0) = jsSumList l := by
  rw [foldl_jsAdd_eq, zero_jsAdd]

/-- The source's `records.reduce((sum, record) => sum + record.amount, 0)`
equals the sum of the mapped-out amounts. -/
theorem reduceAmounts_eq (records : List Record) :
    records.foldl (fun sum record => jsAdd sum record.amount) (some 0)
      = jsSumList (records.map Record.amount) := by
  rw [← foldl_jsAdd_sum, List.foldl_map]

theorem jsSumList_sublist_le {l' l : List JSNum} (hs : l'.Sublist l) :
    (∀ x ∈ l, ∃ q, x = some q ∧ 0 ≤ q) →
      ∃ q' q, jsSumList l' = some q' ∧ jsSumList l = some q ∧ q' ≤ q := by
  induction hs with
  | slnil => exact fun h => ⟨0, 0, rfl, rfl, le_refl 0⟩
  | @cons l₁ l₂ a hsub ih =>
    intro h
    obtain ⟨q', q, h1, h2, h3⟩ := ih (fun y hy => h y (by simp [hy]))
    obtain ⟨qa, ha, hqa⟩ := h a (by simp)
    simp only [jsSumList] at h2
    refine ⟨q', qa + q, h1, ?_, by linarith⟩
    simp only [jsSumList, List.foldr_cons, ha, h2]
    rfl
  | @cons₂ l₁ l₂ a hsub ih =>
    intro h
    obtain ⟨q', q, h1, h2, h3⟩ := ih (fun y hy => h y (by simp [hy]))
    obtain ⟨qa, ha, hqa⟩ := h a (by simp)
    simp only [jsSumList] at h1 h2
    refine ⟨qa + q', qa + q, ?_, ?_, by linarith⟩
    · simp only [jsSumList, List.foldr_cons, ha, h1]
      rfl
    · simp only [jsSumList, List.foldr_cons, ha, h2]
      rfl

theorem concatMap_append {α β : Type} (f : α → List β) (l1 l2 : List α) :
    concatMap f (l1 ++ l2) = concatMap f l1 ++ concatMap f l2 := by
  induction l1 with
  | nil => simp [concatMap]
  | cons x t ih => simp [concatMap, ih]

/-- The code's nested reduce equals the sum of the per-user sums. -/
theorem grandTotal_eq (users : List (String × List Record)) :
    grandTotal users
      = jsSumList (users.map (fun p => jsSumList (p.2.map Record.amount))) := by
  have h1 : users.foldl
      (fun total p =>
        jsAdd total (p.2.foldl (fun sum record => jsAdd sum record.amount) (some 0)))
      (some 0)
      = (users.map
          (fun p => p.2.foldl (fun sum record => jsAdd sum record.amount) (some 0))).foldl
          jsAdd (some 0) :=
    (List.foldl_map _ _ _ _).symm
  rw [grandTotal, h1, foldl_jsAdd_sum]
  simp only [reduceAmounts_eq]

theorem grandTotal_insert_empty (users1 users2 : List (String × List Record)) (id : String) :
    grandTotal (users1 ++ (id, []) :: users2) = grandTotal (users1 ++ users2) := by
  rw [grandTotal, grandTotal, List.foldl_append, List.foldl_append, List.foldl_cons]
  congr 1
  simp [jsAdd_zero]

/-- Claim C1 as stated is false: half a minute after the last record with a
60-minute wait, the code returns 59 (the truncated difference already drops
the started minute), while "waitingMinutes minus the whole minutes elapsed,
clamped at 0" is 60. -/
theorem getWaitingTime_floor_counterexample :
    getWaitingTime 0 60 30000 = 59 ∧ specWaitingTimeRemaining 0 60 30000 = 60 := by
  decide

/-- Claim C1 amended: for `now` at or after `lastTimestamp` and positive
`waitingMinutes`, the result equals `waitingMinutes` minus the elapsed minutes
rounded UP (a started minute counts in full), clamped below at 0; in
particular it is a non-negative integer. -/
theorem getWaitingTime_eq_minus_ceil (last W now : Int) (hW : 0 < W) (hle : last ≤ now) :
    getWaitingTime last W now
        = max 0 (W - (((now - last).toNat + 59999) / 60000 : ℕ))
      ∧ 0 ≤ getWaitingTime last W now := by
  unfold getWaitingTime differenceInMinutes addMinutes minuteTrunc
  constructor
  · split_ifs <;> omega
  · split_ifs <;> omega

/-- Witness for the amended claim C1 at `last = 0`, `W = 60`,
`now = 150000` (2.5 minutes elapsed, 57 minutes remaining). -/
theorem getWaitingTime_eq_minus_ceil_witness :
    getWaitingTime 0 60 150000
        = max 0 (60 - ((((150000 : Int) - 0).toNat + 59999) / 60000 : ℕ))
      ∧ 0 ≤ getWaitingTime 0 60 150000 :=
  getWaitingTime_eq_minus_ceil 0 60 150000 (by decide) (by decide)

/-- Claim C2's "positive for every now strictly before
`lastTimestamp + waitingMinutes`" is false: 30 seconds before that instant the
code already returns 0. -/
theorem getWaitingTime_zero_before_threshold :
    getWaitingTime 0 60 3570000 = 0 ∧ (3570000 : Int) < addMinutes 0 60 := by
  decide

/-- Claim C2 amended: for fixed `last` and positive `W`, `getWaitingTime` is
monotonically non-increasing as `now` advances, and it is 0 exactly when `now`
is strictly later than `last + (W - 1)` minutes — so it is 0 at and after
`last + W` minutes, but already reaches 0 up to a minute before that instant. -/
theorem getWaitingTime_monotone_zero (last W now1 now2 : Int) (hW : 0 < W) (h12 : now1 ≤ now2) :
    getWaitingTime last W now2 ≤ getWaitingTime last W now1
      ∧ (getWaitingTime last W now1 = 0 ↔ last + (W - 1) * 60000 < now1) := by
  unfold getWaitingTime differenceInMinutes addMinutes minuteTrunc
  constructor
  · split_ifs <;> omega
  · split_ifs <;> omega

/-- Witness for the amended claim C2 at `last = 0`, `W = 60`,
`now1 = 3500000`, `now2 = 3600000`. -/
theorem getWaitingTime_monotone_zero_witness :
    getWaitingTime 0 60 3600000 ≤ getWaitingTime 0 60 3500000
      ∧ (getWaitingTime 0 60 3500000 = 0 ↔ (0 : Int) + (60 - 1) * 60000 < 3500000) :=
  getWaitingTime_monotone_zero 0 60 3500000 3600000 (by decide) (by decide)

/-- Claim C3: recent consumption sums exactly the records whose timestamp is
strictly greater than the cutoff `now - hoursAgo` hours, and a record exactly
at the cutoff instant contributes nothing. -/
theorem calculateRecentConsumption_spec (records : List Record) (hoursAgo now : Int)
    (r : Record) (hr : r.timestamp = subHours now hoursAgo) :
    calculateRecentConsumption records hoursAgo now
        = jsSumList ((records.filter
            (fun record => decide (subHours now hoursAgo < record.timestamp))).map
            Record.amount)
      ∧ calculateRecentConsumption (r :: records) hoursAgo now
        = calculateRecentConsumption records hoursAgo now := by
  constructor
  · rw [calculateRecentConsumption, reduceAmounts_eq]
  · simp [calculateRecentConsumption, List.filter, hr]

/-- Witness for claim C3 with a 2-hour window ending at epoch 7200000 (cutoff
epoch 0): the record at epoch 1 is counted, a record exactly at the cutoff is
not. -/
theorem calculateRecentConsumption_spec_witness :
    calculateRecentConsumption [{ timestamp := 1, amount := some 10 }] 2 7200000
        = jsSumList ((([{ timestamp := 1, amount := some 10 }] : List Record).filter
            (fun record => decide (subHours 7200000 2 < record.timestamp))).map
            Record.amount)
      ∧ calculateRecentConsumption
          ({ timestamp := 0, amount := some 5 } :: [{ timestamp := 1, amount := some 10 }])
          2 7200000
        = calculateRecentConsumption [{ timestamp := 1, amount := some 10 }] 2 7200000 :=
  calculateRecentConsumption_spec [{ timestamp := 1, amount := some 10 }] 2 7200000
    { timestamp := 0, amount := some 5 } (by decide)

/-- Claim C4's "no-op when the amount is non-numeric" is false: with user
"alice" selected, submitting the non-numeric amount "abc" appends a record
whose amount is `NaN` and changes the stored mapping. -/
theorem handleAddRecord_nan_counterexample :
    parseFloat "abc" = none
      ∧ handleAddRecord "abc" (some "alice") 0 ⟨[("alice", [])], 60⟩
          ≠ ⟨[("alice", [])], 60⟩ := by
  decide

/-- Claim C4 amended: the handler is a no-op exactly when the amount input is
the empty string or no user is selected; for any other input — including a
non-empty non-numeric one, whose parse is `NaN` — it appends exactly one
record with timestamp `now` and amount `parseFloat amount` to the selected
user's list and persists the whole mapping. -/
theorem handleAddRecord_spec (s : Storage) (amount : String) (cu : Option String)
    (now : Int) :
    ((amount = "" ∨ cu = none ∨ cu = some "") → handleAddRecord amount cu now s = s)
      ∧ (∀ u, cu = some u → amount ≠ "" → u ≠ "" →
          (handleAddRecord amount cu now s).users
              = objSet u (((objGet u s.users).getD [])
                  ++ [{ timestamp := now, amount := parseFloat amount }]) s.users
            ∧ lookupUser u (handleAddRecord amount cu now s).users
              = some (((objGet u s.users).getD [])
                  ++ [{ timestamp := now, amount := parseFloat amount }])) := by
  constructor
  · rintro (h | h | h) <;> simp [handleAddRecord, h]
  · rintro u rfl hne hu
    refine ⟨by simp [handleAddRecord, hne, hu], ?_⟩
    simp [handleAddRecord, hne, hu, lookupUser, objGet_objSet_self]

/-- Witness for the amended claim C4: in a store holding only "alice" with no
records, an empty amount is a no-op, and amount "30" appends one record. -/
theorem handleAddRecord_spec_witness :
    handleAddRecord "" (some "alice") 5 ⟨[("alice", [])], 60⟩ = ⟨[("alice", [])], 60⟩
      ∧ (handleAddRecord "30" (some "alice") 5 ⟨[("alice", [])], 60⟩).users
          = objSet "alice"
              (((objGet "alice" ([("alice", [])] : List (String × List Record))).getD [])
                ++ [{ timestamp := 5, amount := parseFloat "30" }]) [("alice", [])] := by
  constructor
  · exact (handleAddRecord_spec ⟨[("alice", [])], 60⟩ "" (some "alice") 5).1 (Or.inl rfl)
  · exact ((handleAddRecord_spec ⟨[("alice", [])], 60⟩ "30" (some "alice") 5).2
      "alice" rfl (by decide) (by decide)).1

/-- Claim C5: `createUser` unconditionally binds the ID to an empty record
list — a fresh ID gets a new entry, an existing ID has its history reset, and
in both cases a subsequent lookup returns the empty record list. -/
theorem handleCreateUser_resets (users : List (String × List Record)) (id : String) :
    lookupUser id (handleCreateUser id users) = some [] := by
  simp [lookupUser, handleCreateUser, objGet_objSet_self]

/-- Claim C6: the final Grand Total row carries the sum of all per-user record
totals, and a user with an empty record list contributes no data rows and no
summary line — inserting such a user anywhere leaves the export unchanged. -/
theorem downloadAllUsers_spec (fd ft : Int → String) (tf : JSNum → String)
    (users : List (String × List Record)) :
    (downloadAllUsersRows fd ft tf users).getLast?
        = some ["Grand Total", "", "",
            tf (jsSumList (users.map (fun p => jsSumList (p.2.map Record.amount)))) ++ " ml"]
      ∧ ∀ pre post : List (String × List Record), ∀ id,
          downloadAllUsersRows fd ft tf (pre ++ (id, []) :: post)
            = downloadAllUsersRows fd ft tf (pre ++ post) := by
  constructor
  · rw [downloadAllUsersRows, ← grandTotal_eq]
    exact List.getLast?_concat _
  · intro pre post id
    rw [downloadAllUsersRows, downloadAllUsersRows, concatMap_append, concatMap_append,
      grandTotal_insert_empty]
    simp [concatMap, userBlock]

/-- Claim C7: the single-user export document is exactly the claimed sequence
of rows, for every rendering of dates, times and numbers. -/
theorem downloadCSV_spec (fd ft : Int → String) (sn tf : JSNum → String)
    (records : List Record) :
    downloadCSVContent fd ft sn tf records = specSingleUserDoc fd ft sn tf records := by
  have hsum := reduceAmounts_eq records
  simp only [downloadCSVContent, downloadCSVRows, specSingleUserDoc, hsum,
    List.map_append, List.map_map, List.map_cons, List.map_nil]
  rfl

/-- Claim C8 fails on whitespace-only input: " " is non-empty and occurs in
"a b", so the claim requires the suggestion list ["a b"], but the source
clears the suggestions because the input trims to the empty string. -/
theorem suggestionsFor_whitespace_counterexample :
    suggestionsFor " " [("a b", [])] = [] ∧ specSuggest " " [("a b", [])] = ["a b"] := by
  decide

/-- Claim C8 amended: the suggestions are exactly the stored IDs — in
insertion order, original case preserved — whose lowercase form contains the
lowercase form of the (untrimmed) input, except that an input that trims to
the empty string (empty or whitespace-only) suppresses all suggestions; the
spec's example store behaves as stated. -/
theorem suggestionsFor_spec (userId : String) (users : List (String × List Record)) :
    suggestionsFor userId users
        = (users.map Prod.fst).filter
            (fun id => !(jsTrim userId == "")
              && strIncludes (jsToLower id) (jsToLower userId))
      ∧ suggestionsFor "AL" [("alice", []), ("bob", []), ("ALex", [])] = ["alice", "ALex"] := by
  constructor
  · by_cases h : jsTrim userId = ""
    · simp [suggestionsFor, h]
    · have hb : (jsTrim userId == "") = false := beq_eq_false_iff_ne.mpr h
      simp [suggestionsFor, h, hb]
  · decide

/-- Claim C9: when every record's amount is, as the data model requires, a
real (non-`NaN`) non-negative number, the windowed sum never exceeds the
unfiltered total, and the total of the empty list is 0. -/
theorem recent_le_total (records : List Record) (hoursAgo now : Int)
    (h : ∀ r ∈ records, ∃ q, r.amount = some q ∧ 0 ≤ q) :
    jsLeb (calculateRecentConsumption records hoursAgo now) (totalConsumption records) = true
      ∧ totalConsumption [] = some 0 := by
  refine ⟨?_, rfl⟩
  rw [calculateRecentConsumption, reduceAmounts_eq, totalConsumption, reduceAmounts_eq]
  have hsub : ((records.filter
      (fun record => decide (subHours now hoursAgo < record.timestamp))).map
        Record.amount).Sublist (records.map Record.amount) :=
    (List.filter_sublist records).map Record.amount
  have hmem : ∀ x ∈ records.map Record.amount, ∃ q, x = some q ∧ 0 ≤ q := by
    intro x hx
    obtain ⟨r, hr, rfl⟩ := List.mem_map.mp hx
    exact h r hr
  obtain ⟨q', q, h1, h2, h3⟩ := jsSumList_sublist_le hsub hmem
  simp [h1, h2, jsLeb, h3]

/-- Witness for claim C9 on a single valid record. -/
theorem recent_le_total_witness :
    jsLeb (calculateRecentConsumption [{ timestamp := 0, amount := some 5 }] 2 7200000)
        (totalConsumption [{ timestamp := 0, amount := some 5 }]) = true
      ∧ totalConsumption [] = some 0 :=
  recent_le_total [{ timestamp := 0, amount := some 5 }] 2 7200000
    (by
      intro r hr
      simp only [List.mem_singleton] at hr
      subst hr
      exact ⟨5, rfl, by norm_num⟩)

/-- Claim C10: a successful append for the selected user leaves every other
user's stored record list and the stored waiting-time value unchanged. -/
theorem handleAddRecord_frame (s : Storage) (amount u other : String) (now : Int)
    (hne : amount ≠ "") (hu : u ≠ "") (hother : other ≠ u) :
    objGet other (handleAddRecord amount (some u) now s).users = objGet other s.users
      ∧ (handleAddRecord amount (some u) now s).waitingTime = s.waitingTime := by
  constructor
  · simp [handleAddRecord, hne, hu, objGet_objSet_ne u other hother]
  · simp [handleAddRecord, hne, hu]

/-- Witness for claim C10: appending for "alice" does not touch "bob"'s list
nor the waiting-time setting. -/
theorem handleAddRecord_frame_witness :
    objGet "bob"
        (handleAddRecord "30" (some "alice") 5 ⟨[("alice", []), ("bob", [])], 60⟩).users
        = objGet "bob" ([("alice", []), ("bob", [])] : List (String × List Record))
      ∧ (handleAddRecord "30" (some "alice") 5
          ⟨[("alice", []), ("bob", [])], 60⟩).waitingTime = 60 :=
  handleAddRecord_frame ⟨[("alice", []), ("bob", [])], 60⟩ "30" "alice" "bob" 5
    (by decide) (by decide) (by decide)
